import Mathlib

/-!
Shallow embedding of the availability/booking services of the
appointment-booking repository (src/services/availabilityService.ts and
src/lib/calendar.ts) together with a model of the Firestore document store
they write to, and theorems settling the frozen claims about them.

Modelling conventions:
* The remote document store is a `Store`: two association lists, the
  `calendar` collection keyed by date string and the `bookings` collection
  keyed by the store-assigned id, plus a counter used by `addDoc` to mint
  fresh ids and a logical clock `now` standing for `Timestamp.now()`.
* Every service operation is a pure function `... → Store → Except Err α × Store`.
  The returned store is the state of the remote collections after the call,
  whether or not the call raised: in the source a thrown error does not roll
  back writes that already committed.
* Store failures are injected through explicit `Option Err` fault parameters,
  one per primitive store call the operation performs (`getDoc`, `setDoc`,
  `updateDoc`, `addDoc`): `some e` means that primitive call raises `e`,
  `none` means it succeeds.  This makes the error-handling structure of each
  `try/catch` block visible as data.
* `Timestamp.now()` is `st.now : Nat`; document ids minted by `addDoc` are
  `mkBookingId st.nextId`, a non-empty string, matching the store's guarantee
  that auto-generated ids are non-empty.
-/

/-- A time slot of a calendar document
(interface `TimeSlot` in src/services/availabilityService.ts):
`time` (HH:mm), `isAvailable`, optional `bookedBy`. -/
structure TimeSlot where
  time : String
  isAvailable : Bool
  bookedBy : Option String
deriving DecidableEq

/-- A stored calendar document: the fields written by `setDateAvailability`
and `bookTimeSlot` (`date`, `isAvailable`, `slots`, `updatedAt`).  `slots` is
optional (`slots?: TimeSlot[]` in interface `AvailabilityDate`). -/
structure CalendarDoc where
  date : String
  isAvailable : Bool
  slots : Option (List TimeSlot)
  updatedAt : Nat
deriving DecidableEq

/-- Booking status: `'pending' | 'confirmed' | 'cancelled'`. -/
inductive BookingStatus where
  | pending
  | confirmed
  | cancelled
deriving DecidableEq

/-- The `Booking` input interface of src/services/availabilityService.ts. -/
structure Booking where
  id : Option String
  serviceId : String
  serviceName : String
  date : String
  time : String
  clientName : String
  clientEmail : String
  clientPhone : String
  clientMessage : Option String
  status : BookingStatus
deriving DecidableEq

/-- The booking document actually written by `createBooking`
(its local `cleanBooking` object): all contact fields coerced to strings,
`clientMessage` defaulted to the empty string, plus the two timestamps. -/
structure BookingRecord where
  serviceId : String
  serviceName : String
  date : String
  time : String
  clientName : String
  clientEmail : String
  clientPhone : String
  clientMessage : String
  status : BookingStatus
  createdAt : Nat
  updatedAt : Nat
deriving DecidableEq

/-- An error value.  `Err.store m` is an error raised by the document store
itself; `Err.app m` is an error constructed by application code via
`new Error(m)`.  Distinguishing the two lets a theorem say whether an
operation re-raises the store's error unchanged or substitutes its own. -/
inductive Err where
  | store : String → Err
  | app : String → Err
deriving DecidableEq

/-- The remote document store: the `calendar` collection (keyed by date),
the `bookings` collection (keyed by store-assigned id), the counter backing
`addDoc` id generation, and the current timestamp. -/
structure Store where
  calendar : List (String × CalendarDoc)
  bookings : List (String × BookingRecord)
  nextId : Nat
  now : Nat
deriving DecidableEq

instance {ε α : Type} [DecidableEq ε] [DecidableEq α] :
    DecidableEq (Except ε α) := fun a b =>
  match a, b with
  | Except.ok x, Except.ok y =>
    if h : x = y then isTrue (by rw [h]) else isFalse (by simp [h])
  | Except.ok _, Except.error _ => isFalse (by simp)
  | Except.error _, Except.ok _ => isFalse (by simp)
  | Except.error x, Except.error y =>
    if h : x = y then isTrue (by rw [h]) else isFalse (by simp [h])

/-- Fetch the document stored under key `k` in a collection. -/
def assocGet {α : Type} (l : List (String × α)) (k : String) : Option α :=
  match l with
  | [] => none
  | (k', v) :: rest => if k = k' then some v else assocGet rest k

/-- Write document `v` under key `k`: replace the existing entry for `k`,
or append a new entry when the key is absent. -/
def assocSet {α : Type} (l : List (String × α)) (k : String) (v : α) :
    List (String × α) :=
  match l with
  | [] => [(k, v)]
  | (k', v') :: rest =>
    if k = k' then (k, v) :: rest else (k', v') :: assocSet rest k v

/-- The calendar document currently stored for `date`, if any. -/
def calendarGet (st : Store) (date : String) : Option CalendarDoc :=
  assocGet st.calendar date

/-- Store-assigned booking id minted by `addDoc` (always non-empty). -/
def mkBookingId (n : Nat) : String := "bk" ++ toString n

/-- `setDateAvailability(date, isAvailable, slots)`
(src/services/availabilityService.ts lines 47-69).
The payload passed to `setDoc(..., \x7b merge: true \x7d)` contains every
field of a calendar document — `date`, `isAvailable`, `slots`, `updatedAt` —
so the merge write replaces each of them; in particular `slots` is always
written, because the TypeScript parameter defaults to `[]` when the caller
omits it.  The `catch` block logs and re-throws the same error. -/
def setDateAvailability (fault : Option Err) (st : Store) (date : String)
    (isAvailable : Bool) (slots : List TimeSlot) : Except Err Unit × Store :=
  match fault with
  | some e => (Except.error e, st)
  | none =>
    (Except.ok (),
      { st with calendar :=
          assocSet st.calendar date ⟨date, isAvailable, some slots, st.now⟩ })

/-- `setDateAvailability(date, isAvailable)` with the `slots` argument
omitted: the TypeScript default parameter supplies `[]`. -/
def setDateAvailabilityNoSlots (fault : Option Err) (st : Store)
    (date : String) (isAvailable : Bool) : Except Err Unit × Store :=
  setDateAvailability fault st date isAvailable []

/-- `setBatchAvailability(dates, isAvailable)`
(src/services/availabilityService.ts lines 72-83): applies
`setDateAvailability(date, isAvailable)` to each date independently.
`faults` supplies one fault per date (missing entries mean success).
A failed write leaves its date untouched while the other writes still
commit; the caller receives the first error encountered, re-thrown
unchanged by the `catch` block. -/
def setBatchAvailability (faults : List (Option Err)) (st : Store)
    (dates : List String) (isAvailable : Bool) : Except Err Unit × Store :=
  match dates, faults with
  | [], _ => (Except.ok (), st)
  | d :: ds, [] =>
    let r1 := setDateAvailability none st d isAvailable []
    setBatchAvailability [] r1.2 ds isAvailable
  | d :: ds, f :: fs =>
    match setDateAvailability f st d isAvailable [] with
    | (Except.ok _, st1) => setBatchAvailability fs st1 ds isAvailable
    | (Except.error e, st1) =>
      let r2 := setBatchAvailability fs st1 ds isAvailable
      (Except.error e, r2.2)

/-- `getDateAvailability(date)` (src/services/availabilityService.ts lines
86-95): `getDoc` on `calendar/date`; returns the document when it exists and
`null` otherwise.  The `catch` block logs and re-throws the same error. -/
def getDateAvailability (fault : Option Err) (st : Store) (date : String) :
    Except Err (Option CalendarDoc) × Store :=
  match fault with
  | some e => (Except.error e, st)
  | none => (Except.ok (calendarGet st date), st)

/-- Range predicate of the Firestore query
`where('date', '>=', startDate), where('date', '<=', endDate)`. -/
def inRange (startDate endDate : String) (d : CalendarDoc) : Bool :=
  decide (startDate ≤ d.date) && decide (d.date ≤ endDate)

/-- Ordering of query results: Firestore returns documents ordered by the
inequality-filtered field (`date`), ascending; Lean's `String` order is
lexicographic on the character sequences. -/
def docLe (a b : CalendarDoc) : Prop := a.date ≤ b.date

instance : DecidableRel docLe := fun a b =>
  inferInstanceAs (Decidable (a.date ≤ b.date))

instance : IsTotal CalendarDoc docLe := ⟨fun a b => le_total a.date b.date⟩

instance : IsTrans CalendarDoc docLe := ⟨fun _ _ _ h1 h2 => le_trans h1 h2⟩

/-- `getAvailabilityRange(startDate, endDate)`
(src/services/availabilityService.ts lines 98-111): a Firestore query over
the `calendar` collection filtered by
`date >= startDate` and `date <= endDate`; the store returns the matching
documents ordered by `date` ascending.  The `catch` re-throws unchanged. -/
def getAvailabilityRange (fault : Option Err) (st : Store)
    (startDate endDate : String) : Except Err (List CalendarDoc) × Store :=
  match fault with
  | some e => (Except.error e, st)
  | none =>
    (Except.ok
      (((st.calendar.map Prod.snd).filter (inRange startDate endDate)).insertionSort docLe),
      st)

/-- The slot written for a booked time: `\x7b time, isAvailable: false,
bookedBy: clientEmail \x7d`. -/
def bookedSlot (time clientEmail : String) : TimeSlot :=
  ⟨time, false, some clientEmail⟩

/-- The slot-list update of `bookTimeSlot` on an existing document
(src/services/availabilityService.ts lines 159-168): replace every slot
whose `time` matches (marking it unavailable and binding the client), and
append a fresh slot when no existing slot has that time. -/
def bookSlots (slots : List TimeSlot) (time clientEmail : String) :
    List TimeSlot :=
  let updatedSlots := slots.map fun s =>
    if s.time = time then
      { s with isAvailable := false, bookedBy := some clientEmail }
    else s
  if (slots.find? fun s => s.time == time).isSome then updatedSlots
  else updatedSlots ++ [bookedSlot time clientEmail]

/-- `bookTimeSlot(date, time, clientEmail)`
(src/services/availabilityService.ts lines 136-172): `getDoc` the date's
document (fault `f1`); if absent, `setDoc` a fresh document with a single
booked slot (fault `f2`); if present, `updateDoc` with the updated slot list
and a new `updatedAt` (fault `f2`), leaving `date` and `isAvailable`
untouched.  There is no `try/catch` here: store errors propagate. -/
def bookTimeSlot (f1 f2 : Option Err) (st : Store)
    (date time clientEmail : String) : Except Err Unit × Store :=
  match f1 with
  | some e => (Except.error e, st)
  | none =>
    match calendarGet st date with
    | none =>
      match f2 with
      | some e => (Except.error e, st)
      | none =>
        (Except.ok (),
          { st with calendar :=
              (assocSet st.calendar date
                ⟨date, true, some [bookedSlot time clientEmail], st.now⟩) })
    | some data =>
      match f2 with
      | some e => (Except.error e, st)
      | none =>
        (Except.ok (),
          { st with calendar :=
              (assocSet st.calendar date
                { data with
                    slots := some (bookSlots (data.slots.getD []) time clientEmail),
                    updatedAt := st.now }) })

/-- The `cleanBooking` object built by `createBooking`
(src/services/availabilityService.ts lines 182-194): string fields passed
through `String(...)`, `clientMessage` defaulted to `''`, `status` taken
from the input unchanged, both timestamps set to the current time. -/
def cleanBooking (b : Booking) (now : Nat) : BookingRecord :=
  { serviceId := b.serviceId
    serviceName := b.serviceName
    date := b.date
    time := b.time
    clientName := b.clientName
    clientEmail := b.clientEmail
    clientPhone := b.clientPhone
    clientMessage := b.clientMessage.getD ""
    status := b.status
    createdAt := now
    updatedAt := now }

/-- The store state right after `createBooking`'s `addDoc` committed: the
clean booking record appended to the `bookings` collection under the freshly
minted id. -/
def afterAddDoc (st : Store) (b : Booking) : Store :=
  { st with
    bookings := st.bookings ++ [(mkBookingId st.nextId, cleanBooking b st.now)],
    nextId := st.nextId + 1 }

/-- `createBooking(booking)` (src/services/availabilityService.ts lines
177-209): `addDoc` the clean booking record to `bookings` (fault `f1`), then
`bookTimeSlot` for the same date/time (faults `f2`, `f3`), returning the new
document's id.  Any error is caught and replaced by
`new Error('Booking failed. Please try again.')`; writes that already
committed are not rolled back. -/
def createBooking (f1 f2 f3 : Option Err) (st : Store) (b : Booking) :
    Except Err String × Store :=
  match f1 with
  | some _ => (Except.error (Err.app "Booking failed. Please try again."), st)
  | none =>
    match bookTimeSlot f2 f3 (afterAddDoc st b) b.date b.time b.clientEmail with
    | (Except.ok _, st2) => (Except.ok (mkBookingId st.nextId), st2)
    | (Except.error _, st2) =>
      (Except.error (Err.app "Booking failed. Please try again."), st2)

/-- `getAllBookings()` (src/services/availabilityService.ts lines 212-221):
fetch every booking record; the `catch` logs and re-throws unchanged. -/
def getAllBookings (fault : Option Err) (st : Store) :
    Except Err (List (String × BookingRecord)) × Store :=
  match fault with
  | some e => (Except.error e, st)
  | none => (Except.ok st.bookings, st)

/-- `updateBookingStatus(bookingId, status)`
(src/services/availabilityService.ts lines 240-252): `updateDoc` of `status`
and `updatedAt` on an existing booking; `updateDoc` on a missing document is
rejected by the store; the `catch` logs and re-throws unchanged. -/
def updateBookingStatus (fault : Option Err) (st : Store) (bookingId : String)
    (status : BookingStatus) : Except Err Unit × Store :=
  match fault with
  | some e => (Except.error e, st)
  | none =>
    match assocGet st.bookings bookingId with
    | none => (Except.error (Err.store "No document to update"), st)
    | some r =>
      (Except.ok (),
        { st with bookings :=
            (assocSet st.bookings bookingId
              { r with status := status, updatedAt := st.now }) })

/-- A time slot as seen by src/lib/calendar.ts (`TimeSlot` from `@/types`,
fields inferred from their uses in that file: `time` and `available`). -/
structure LibTimeSlot where
  time : String
  available : Bool
deriving DecidableEq

/-- A calendar document as seen by src/lib/calendar.ts (`CalendarDoc` from
`@/types`, fields inferred from their uses in that file: `available` and an
optional `slots`). -/
structure LibCalendarDoc where
  date : String
  available : Bool
  slots : Option (List LibTimeSlot)
deriving DecidableEq

namespace Calendar

/-- `isAvailable(calendarDoc)` (src/lib/calendar.ts lines 80-83): a missing
document defaults to available; otherwise the day flag must be set and,
when a slot list is present, some slot must be available
(`calendarDoc.slots?.some(slot => slot.available) ?? true`). -/
def isAvailable (calendarDoc : Option LibCalendarDoc) : Bool :=
  match calendarDoc with
  | none => true
  | some d =>
    d.available &&
      (match d.slots with
       | none => true
       | some sl => sl.any fun slot => slot.available)

end Calendar

/-- Example calendar slot used in concrete counterexamples and witnesses. -/
def exSlot : TimeSlot := ⟨"10:00", false, some "a@x.com"⟩

/-- Example calendar document with a non-empty slot list. -/
def exDoc : CalendarDoc := ⟨"2024-06-01", true, some [exSlot], 1⟩

/-- Example store holding one calendar document and no bookings. -/
def exStore : Store := ⟨[("2024-06-01", exDoc)], [], 0, 7⟩

/-- Example empty store. -/
def emptyStore : Store := ⟨[], [], 0, 7⟩

/-- Example booking input whose status is `confirmed`, not `pending`. -/
def exBookingConfirmed : Booking :=
  { id := none
    serviceId := "svc1"
    serviceName := "Cut"
    date := "2024-06-01"
    time := "10:00"
    clientName := "A"
    clientEmail := "a@x.com"
    clientPhone := "+1"
    clientMessage := none
    status := BookingStatus.confirmed }

/-- Example booking input with status `pending`. -/
def exBookingPending : Booking :=
  { exBookingConfirmed with status := BookingStatus.pending }

/-- Example store with three calendar documents, stored out of date order,
for the range-query witness. -/
def rangeStore : Store :=
  ⟨[("2024-06-02", ⟨"2024-06-02", true, none, 0⟩),
    ("2024-06-01", ⟨"2024-06-01", false, some [], 1⟩),
    ("2024-07-01", ⟨"2024-07-01", true, none, 2⟩)], [], 0, 7⟩

/-- Reading back the key just written returns the written document. -/
theorem assocGet_set_self {α : Type} (l : List (String × α)) (k : String)
    (v : α) : assocGet (assocSet l k v) k = some v := by
  induction l with
  | nil => simp [assocGet, assocSet]
  | cons kv rest ih =>
    by_cases h : k = kv.1
    · simp [assocSet, assocGet, h]
    · simp [assocSet, assocGet, h, ih]

/-- Writing one key leaves every other key's document unchanged. -/
theorem assocGet_set_ne {α : Type} (l : List (String × α)) (k k' : String)
    (v : α) (h : k' ≠ k) :
    assocGet (assocSet l k v) k' = assocGet l k' := by
  induction l with
  | nil => simp [assocGet, assocSet, h]
  | cons kv rest ih =>
    by_cases h2 : k = kv.1
    · subst h2
      simp [assocSet, assocGet, h, ih]
    · by_cases h3 : k' = kv.1
      · simp [assocSet, assocGet, h2, h3]
      · simp [assocSet, assocGet, h2, h3, ih]

/-- Writing an absent key adds exactly one entry to the collection. -/
theorem length_assocSet_of_none {α : Type} (l : List (String × α))
    (k : String) (v : α) (h : assocGet l k = none) :
    (assocSet l k v).length = l.length + 1 := by
  induction l with
  | nil => simp [assocSet]
  | cons kv rest ih =>
    by_cases h2 : k = kv.1
    · simp [assocGet, h2] at h
    · simp [assocGet, h2] at h
      simp [assocSet, h2, ih h]

/-- The slot-map step of `bookSlots` preserves the sublist of slots whose
time differs from the booked time, values and order included. -/
theorem bookSlots_map_filter_ne (sl : List TimeSlot) (t c : String) :
    ((sl.map fun s =>
        if s.time = t then
          { s with isAvailable := false, bookedBy := some c }
        else s).filter fun s => !(s.time == t)) =
      sl.filter fun s => !(s.time == t) := by
  induction sl with
  | nil => rfl
  | cons s rest ih =>
    by_cases h : s.time = t
    · simp [List.filter_cons, h, ih]
    · simp [List.filter_cons, h, ih]

/-- `bookSlots` preserves every slot whose time differs from the booked
time, with the same values and in the same relative order. -/
theorem bookSlots_filter_ne (sl : List TimeSlot) (t c : String) :
    ((bookSlots sl t c).filter fun s => !(s.time == t)) =
      sl.filter fun s => !(s.time == t) := by
  unfold bookSlots
  by_cases h : (sl.find? fun s => s.time == t).isSome
  · simp only [h, if_true]
    exact bookSlots_map_filter_ne sl t c
  · simp only [h, if_false, List.filter_append]
    simp [bookSlots_map_filter_ne sl t c, bookedSlot]

/-- Every slot of `bookSlots sl t c` whose time is the booked time is the
booked slot: unavailable and bound to the client. -/
theorem bookSlots_matching (sl : List TimeSlot) (t c : String) :
    ∀ s ∈ bookSlots sl t c, s.time = t → s = bookedSlot t c := by
  intro s hs hst
  have hmap : ∀ x ∈ (sl.map fun s =>
      if s.time = t then
        { s with isAvailable := false, bookedBy := some c }
      else s), x.time = t → x = bookedSlot t c := by
    intro x hx hxt
    obtain ⟨a, _, rfl⟩ := List.mem_map.mp hx
    by_cases h2 : a.time = t
    · simp [h2, bookedSlot]
    · simp [h2] at hxt
  unfold bookSlots at hs
  by_cases h : (sl.find? fun s => s.time == t).isSome
  · simp only [h, if_true] at hs
    exact hmap s hs hst
  · simp only [h, if_false] at hs
    rcases List.mem_append.mp hs with h1 | h1
    · exact hmap s h1 hst
    · simpa using h1

/-- The booked slot is present in `bookSlots sl t c`. -/
theorem bookSlots_mem (sl : List TimeSlot) (t c : String) :
    bookedSlot t c ∈ bookSlots sl t c := by
  unfold bookSlots
  by_cases h : (sl.find? fun s => s.time == t).isSome
  · simp only [h, if_true]
    obtain ⟨a, ha⟩ := Option.isSome_iff_exists.mp h
    have hmem := List.mem_of_find?_eq_some ha
    have hat : a.time = t := by simpa using List.find?_some ha
    refine List.mem_map.mpr ⟨a, hmem, ?_⟩
    simp [hat, bookedSlot]
  · simp only [h, if_false]
    exact List.mem_append_right _ (List.mem_singleton_self _)

/-- When the slot list has at most one slot per time, `bookSlots` leaves
exactly one slot carrying the booked time. -/
theorem bookSlots_count (sl : List TimeSlot) (t c : String)
    (h : (sl.map TimeSlot.time).Nodup) :
    ((bookSlots sl t c).filter fun s => s.time == t).length = 1 := by
  unfold bookSlots
  by_cases hf : (sl.find? fun s => s.time == t).isSome
  · simp only [hf, if_true]
    rw [← List.countP_eq_length_filter, List.countP_map]
    have hcong : (sl.countP ((fun s => s.time == t) ∘ fun s =>
        if s.time = t then
          { s with isAvailable := false, bookedBy := some c }
        else s)) = sl.countP fun s => s.time == t := by
      apply List.countP_congr
      intro a _
      by_cases h2 : a.time = t <;> simp [h2]
    rw [hcong]
    have hcount : (sl.countP fun s => s.time == t) =
        (sl.map TimeSlot.time).count t := by
      rw [List.count, List.countP_map]
      rfl
    rw [hcount]
    obtain ⟨a, ha⟩ := Option.isSome_iff_exists.mp hf
    have hmem := List.mem_of_find?_eq_some ha
    have hat : a.time = t := by simpa using List.find?_some ha
    exact List.count_eq_one_of_mem h (List.mem_map.mpr ⟨a, hmem, hat⟩)
  · have hnone : (sl.find? fun s => s.time == t) = none :=
      Option.not_isSome_iff_eq_none.mp hf
    have hall := List.find?_eq_none.mp hnone
    have h1 : ((sl.map fun s =>
        if s.time = t then
          { s with isAvailable := false, bookedBy := some c }
        else s).filter fun s => s.time == t) = [] := by
      apply List.filter_eq_nil_iff.mpr
      intro x hx
      obtain ⟨a, ha, rfl⟩ := List.mem_map.mp hx
      have hat := hall a ha
      by_cases h2 : a.time = t
      · exact absurd (by simp [h2]) hat
      · simp [h2]
    simp [hnone, List.filter_append, h1, bookedSlot]

/-- On an absent date, `bookTimeSlot` with no store fault performs the
`setDoc` branch. -/
theorem bookTimeSlot_none_eq (st : Store) (d t c : String)
    (h : calendarGet st d = none) :
    bookTimeSlot none none st d t c =
      (Except.ok (),
        { st with calendar :=
            (assocSet st.calendar d ⟨d, true, some [bookedSlot t c], st.now⟩) }) := by
  simp [bookTimeSlot, h]

/-- On a present date, `bookTimeSlot` with no store fault performs the
`updateDoc` branch: only `slots` and `updatedAt` change. -/
theorem bookTimeSlot_some_eq (st : Store) (d t c : String) (doc : CalendarDoc)
    (h : calendarGet st d = some doc) :
    bookTimeSlot none none st d t c =
      (Except.ok (),
        { st with calendar :=
            (assocSet st.calendar d
              { doc with
                  slots := some (bookSlots (doc.slots.getD []) t c),
                  updatedAt := st.now }) }) := by
  simp [bookTimeSlot, h]

/-- `bookTimeSlot` with no store fault succeeds and leaves the date's
document holding the booked slot; every slot at the booked time is bound to
this client. -/
theorem bookTimeSlot_marks (st : Store) (d t c : String) :
    ∃ st', bookTimeSlot none none st d t c = (Except.ok (), st') ∧
      ∃ doc, calendarGet st' d = some doc ∧
        bookedSlot t c ∈ doc.slots.getD [] ∧
        ∀ s ∈ doc.slots.getD [], s.time = t → s = bookedSlot t c := by
  cases hcal : calendarGet st d with
  | none =>
    refine ⟨_, bookTimeSlot_none_eq st d t c hcal, ?_⟩
    refine ⟨⟨d, true, some [bookedSlot t c], st.now⟩, ?_, ?_, ?_⟩
    · exact assocGet_set_self st.calendar d _
    · simp
    · intro s hs _
      simpa using hs
  | some doc =>
    refine ⟨_, bookTimeSlot_some_eq st d t c doc hcal, ?_⟩
    refine ⟨{ doc with
        slots := some (bookSlots (doc.slots.getD []) t c),
        updatedAt := st.now }, ?_, ?_, ?_⟩
    · exact assocGet_set_self st.calendar d _
    · simpa using bookSlots_mem (doc.slots.getD []) t c
    · intro s hs hst
      exact bookSlots_matching (doc.slots.getD []) t c s (by simpa using hs) hst

/-- `bookTimeSlot` with no store fault succeeds, and it touches neither the
`bookings` collection nor the id counter nor the clock. -/
theorem bookTimeSlot_no_fault_ok (st : Store) (d t c : String) :
    (bookTimeSlot none none st d t c).1 = Except.ok () ∧
    (bookTimeSlot none none st d t c).2.bookings = st.bookings ∧
    (bookTimeSlot none none st d t c).2.nextId = st.nextId ∧
    (bookTimeSlot none none st d t c).2.now = st.now := by
  cases hcal : calendarGet st d with
  | none => rw [bookTimeSlot_none_eq st d t c hcal]; exact ⟨rfl, rfl, rfl, rfl⟩
  | some doc =>
    rw [bookTimeSlot_some_eq st d t c doc hcal]; exact ⟨rfl, rfl, rfl, rfl⟩

/-- Ids minted by `addDoc` are never the empty string. -/
theorem mkBookingId_ne_empty (n : Nat) : mkBookingId n ≠ "" := by
  intro h
  have hlen := congrArg String.length h
  rw [mkBookingId, String.length_append] at hlen
  have h2 : ("bk" : String).length = 2 := rfl
  have h0 : ("" : String).length = 0 := rfl
  rw [h2, h0] at hlen
  omega

/-- `createBooking` with no store fault returns the freshly minted id and
the store produced by booking the slot on top of the appended record. -/
theorem createBooking_no_fault_eq (st : Store) (b : Booking) :
    createBooking none none none st b =
      (Except.ok (mkBookingId st.nextId),
       (bookTimeSlot none none (afterAddDoc st b) b.date b.time b.clientEmail).2) := by
  have h := (bookTimeSlot_no_fault_ok (afterAddDoc st b) b.date b.time b.clientEmail).1
  have hpair : bookTimeSlot none none (afterAddDoc st b) b.date b.time b.clientEmail =
      (Except.ok (),
       (bookTimeSlot none none (afterAddDoc st b) b.date b.time b.clientEmail).2) := by
    rw [← h]
  unfold createBooking
  rw [hpair]

/-- Claim C1, counterexample: calling `setDateAvailability` with only an
availability flag (no slots argument) does not leave a stored non-empty
slot list unchanged.  On a store whose calendar document for 2024-06-01
holds one slot, the call rewrites the slot list to the empty list. -/
theorem setDateAvailability_omitted_slots_cex :
    calendarGet exStore "2024-06-01" = some exDoc ∧
    exDoc.slots = some [exSlot] ∧
    calendarGet (setDateAvailabilityNoSlots none exStore "2024-06-01" false).2
        "2024-06-01" = some ⟨"2024-06-01", false, some [], 7⟩ ∧
    some ([] : List TimeSlot) ≠ some [exSlot] := by
  refine ⟨rfl, rfl, by decide, by decide⟩

/-- Claim C1, amended: for every date, calling `setDateAvailability` with
only an availability flag (slots argument omitted) overwrites the stored
document wholesale: the slot list becomes the empty list (the TypeScript
default `slots = []` is always part of the merge payload), `isAvailable`
becomes the flag, `updatedAt` the current time; other dates and the
bookings collection are untouched. -/
theorem setDateAvailability_omitted_slots_overwrites (st : Store)
    (date : String) (av : Bool) :
    ∃ st', setDateAvailabilityNoSlots none st date av = (Except.ok (), st') ∧
      calendarGet st' date = some ⟨date, av, some [], st.now⟩ ∧
      (∀ d, d ≠ date → calendarGet st' d = calendarGet st d) ∧
      st'.bookings = st.bookings := by
  refine ⟨_, rfl, ?_, ?_, rfl⟩
  · exact assocGet_set_self st.calendar date _
  · intro d hd
    exact assocGet_set_ne st.calendar date d _ hd

/-- Claim C1, witness: the amended statement at a concrete store. -/
theorem setDateAvailability_omitted_slots_overwrites_witness :
    ∃ st', setDateAvailabilityNoSlots none exStore "2024-06-01" false =
        (Except.ok (), st') ∧
      calendarGet st' "2024-06-01" = some ⟨"2024-06-01", false, some [], 7⟩ ∧
      (∀ d, d ≠ "2024-06-01" → calendarGet st' d = calendarGet exStore d) ∧
      st'.bookings = exStore.bookings :=
  setDateAvailability_omitted_slots_overwrites exStore "2024-06-01" false

/-- Claim C2, counterexample: the booking record written by `createBooking`
keeps the status of the input booking — for an input with status
`confirmed`, the stored record's status is `confirmed`, not `pending`. -/
theorem createBooking_status_cex :
    exBookingConfirmed.status = BookingStatus.confirmed ∧
    (createBooking none none none exStore exBookingConfirmed).2.bookings =
      [("bk0", cleanBooking exBookingConfirmed 7)] ∧
    (cleanBooking exBookingConfirmed 7).status = BookingStatus.confirmed ∧
    BookingStatus.confirmed ≠ BookingStatus.pending := by
  refine ⟨rfl, by decide, rfl, by decide⟩

/-- Claim C2, amended: for every input booking, the record written by
`createBooking` has status equal to the status of the input (passed through
unchanged, not forced to `pending`; the only caller in the repository passes
`pending`), and both `createdAt` and `updatedAt` set to the current time. -/
theorem createBooking_status_passthrough (st : Store) (b : Booking) :
    ∃ st', createBooking none none none st b =
        (Except.ok (mkBookingId st.nextId), st') ∧
      st'.bookings =
        st.bookings ++ [(mkBookingId st.nextId, cleanBooking b st.now)] ∧
      (cleanBooking b st.now).status = b.status ∧
      (cleanBooking b st.now).createdAt = st.now ∧
      (cleanBooking b st.now).updatedAt = st.now := by
  refine ⟨_, createBooking_no_fault_eq st b, ?_, rfl, rfl, rfl⟩
  exact (bookTimeSlot_no_fault_ok (afterAddDoc st b) b.date b.time b.clientEmail).2.1

/-- Claim C3, counterexample: when the `addDoc` inside `createBooking`
raises a store error, the caller receives the application-constructed error
`Booking failed. Please try again.`, not the store's own error. -/
theorem createBooking_error_wrapped_cex :
    (createBooking (some (Err.store "boom")) none none exStore exBookingPending).1 =
      Except.error (Err.app "Booking failed. Please try again.") ∧
    Err.app "Booking failed. Please try again." ≠ Err.store "boom" :=
  ⟨rfl, by decide⟩

/-- Claim C3, amended: every store operation of the availability and booking
services re-raises a store error unchanged to its caller — with the single
exception of `createBooking`, which replaces any error (from its `addDoc` or
from the nested `bookTimeSlot`) with the fresh application error
`Booking failed. Please try again.`.  No operation retries. -/
theorem store_error_reraised_except_createBooking (e : Err) (st : Store)
    (d t bid : String) (av : Bool) (sl : List TimeSlot)
    (stat : BookingStatus) (b : Booking) :
    (getDateAvailability (some e) st d).1 = Except.error e ∧
    (setDateAvailability (some e) st d av sl).1 = Except.error e ∧
    (setBatchAvailability [some e] st [d] av).1 = Except.error e ∧
    (getAvailabilityRange (some e) st d t).1 = Except.error e ∧
    (getAllBookings (some e) st).1 = Except.error e ∧
    (updateBookingStatus (some e) st bid stat).1 = Except.error e ∧
    (bookTimeSlot (some e) none st d t bid).1 = Except.error e ∧
    (bookTimeSlot none (some e) st d t bid).1 = Except.error e ∧
    (createBooking (some e) none none st b).1 =
      Except.error (Err.app "Booking failed. Please try again.") ∧
    (createBooking none (some e) none st b).1 =
      Except.error (Err.app "Booking failed. Please try again.") := by
  refine ⟨rfl, rfl, rfl, rfl, rfl, rfl, rfl, ?_, rfl, rfl⟩
  cases hcal : calendarGet st d <;> simp [bookTimeSlot, hcal]

/-- Claim C4: for every booking input, a successful `createBooking` (no
store fault) returns a non-empty identifier and leaves the calendar
document for the booking's date containing a slot with the given time,
`isAvailable` false, and `bookedBy` equal to the client's email. -/
theorem createBooking_success_marks_slot (st : Store) (b : Booking) :
    ∃ st', createBooking none none none st b =
        (Except.ok (mkBookingId st.nextId), st') ∧
      mkBookingId st.nextId ≠ "" ∧
      ∃ doc, calendarGet st' b.date = some doc ∧
        (⟨b.time, false, some b.clientEmail⟩ : TimeSlot) ∈ doc.slots.getD [] := by
  obtain ⟨st2, heq, doc, hget, hmem, _⟩ :=
    bookTimeSlot_marks (afterAddDoc st b) b.date b.time b.clientEmail
  refine ⟨st2, ?_, mkBookingId_ne_empty st.nextId, doc, hget, hmem⟩
  rw [createBooking_no_fault_eq st b, heq]

/-- Claim C5: on a date with no stored calendar document, `bookTimeSlot`
creates exactly one new calendar document — stored under that date,
containing exactly one slot with the given time, unavailable and bound to
the given client — without touching other dates or the bookings
collection. -/
theorem bookTimeSlot_absent_creates_singleton (st : Store)
    (date time c : String) (h : calendarGet st date = none) :
    ∃ st', bookTimeSlot none none st date time c = (Except.ok (), st') ∧
      calendarGet st' date =
        some ⟨date, true, some [⟨time, false, some c⟩], st.now⟩ ∧
      st'.calendar.length = st.calendar.length + 1 ∧
      (∀ d, d ≠ date → calendarGet st' d = calendarGet st d) ∧
      st'.bookings = st.bookings := by
  refine ⟨_, bookTimeSlot_none_eq st date time c h, ?_, ?_, ?_, rfl⟩
  · exact assocGet_set_self st.calendar date _
  · exact length_assocSet_of_none st.calendar date _ h
  · intro d hd
    exact assocGet_set_ne st.calendar date d _ hd

/-- Claim C5, witness: the statement at a concrete empty store. -/
theorem bookTimeSlot_absent_creates_singleton_witness :
    ∃ st', bookTimeSlot none none emptyStore "2024-06-01" "10:00" "a@x.com" =
        (Except.ok (), st') ∧
      calendarGet st' "2024-06-01" =
        some ⟨"2024-06-01", true, some [⟨"10:00", false, some "a@x.com"⟩], 7⟩ ∧
      st'.calendar.length = emptyStore.calendar.length + 1 ∧
      (∀ d, d ≠ "2024-06-01" → calendarGet st' d = calendarGet emptyStore d) ∧
      st'.bookings = emptyStore.bookings :=
  bookTimeSlot_absent_creates_singleton emptyStore "2024-06-01" "10:00"
    "a@x.com" (by decide)

/-- Claim C6: booking the same (date, time) twice in sequence with two
different clients raises no error on either call and leaves the slot bound
to the second client (last-write-wins): a slot with that time, unavailable
and bound to the second client is stored, and every stored slot at that
time is exactly that slot. -/
theorem bookTimeSlot_twice_last_write_wins (st : Store)
    (date time c1 c2 : String) :
    ∃ st1 st2, bookTimeSlot none none st date time c1 = (Except.ok (), st1) ∧
      bookTimeSlot none none st1 date time c2 = (Except.ok (), st2) ∧
      ∃ doc, calendarGet st2 date = some doc ∧
        (⟨time, false, some c2⟩ : TimeSlot) ∈ doc.slots.getD [] ∧
        ∀ s ∈ doc.slots.getD [], s.time = time →
          s = (⟨time, false, some c2⟩ : TimeSlot) := by
  obtain ⟨st1, heq1, _⟩ := bookTimeSlot_marks st date time c1
  obtain ⟨st2, heq2, doc, hget, hmem, hall⟩ :=
    bookTimeSlot_marks st1 date time c2
  exact ⟨st1, st2, heq1, heq2, doc, hget, hmem, hall⟩

/-- Claim C6, witness: the statement at a concrete store with two concrete
clients. -/
theorem bookTimeSlot_twice_last_write_wins_witness :
    ∃ st1 st2, bookTimeSlot none none exStore "2024-06-01" "10:00" "c1@x.com" =
        (Except.ok (), st1) ∧
      bookTimeSlot none none st1 "2024-06-01" "10:00" "c2@x.com" =
        (Except.ok (), st2) ∧
      ∃ doc, calendarGet st2 "2024-06-01" = some doc ∧
        (⟨"10:00", false, some "c2@x.com"⟩ : TimeSlot) ∈ doc.slots.getD [] ∧
        ∀ s ∈ doc.slots.getD [], s.time = "10:00" →
          s = (⟨"10:00", false, some "c2@x.com"⟩ : TimeSlot) :=
  bookTimeSlot_twice_last_write_wins exStore "2024-06-01" "10:00"
    "c1@x.com" "c2@x.com"

/-- Claim C7: if the `bookTimeSlot` step inside `createBooking` fails after
the booking record was written, `createBooking` raises an error to its
caller while the booking record remains appended to the bookings collection
and the calendar is untouched — no compensating delete, no rollback.  Both
failure points inside `bookTimeSlot` (its read and its write) are
covered. -/
theorem createBooking_partial_failure_orphan (st : Store) (b : Booking)
    (e : Err) :
    (∃ st', createBooking none (some e) none st b =
        (Except.error (Err.app "Booking failed. Please try again."), st') ∧
      st'.bookings =
        st.bookings ++ [(mkBookingId st.nextId, cleanBooking b st.now)] ∧
      st'.calendar = st.calendar) ∧
    (∃ st', createBooking none none (some e) st b =
        (Except.error (Err.app "Booking failed. Please try again."), st') ∧
      st'.bookings =
        st.bookings ++ [(mkBookingId st.nextId, cleanBooking b st.now)] ∧
      st'.calendar = st.calendar) := by
  constructor
  · exact ⟨afterAddDoc st b, rfl, rfl, rfl⟩
  · refine ⟨afterAddDoc st b, ?_, rfl, rfl⟩
    unfold createBooking
    cases hcal : calendarGet (afterAddDoc st b) b.date <;>
      simp [bookTimeSlot, hcal]

/-- Claim C8: for every date with no stored calendar document,
`getDateAvailability` returns absent, and the availability check
`isAvailable` of src/lib/calendar.ts treats an absent document as
available. -/
theorem getDateAvailability_absent_available (st : Store) (date : String)
    (h : calendarGet st date = none) :
    getDateAvailability none st date = (Except.ok none, st) ∧
    Calendar.isAvailable none = true := by
  constructor
  · unfold getDateAvailability
    rw [h]
  · rfl

/-- Claim C8, witness: the statement at the concrete empty store. -/
theorem getDateAvailability_absent_available_witness :
    getDateAvailability none emptyStore "2024-06-01" =
      (Except.ok none, emptyStore) ∧
    Calendar.isAvailable none = true :=
  getDateAvailability_absent_available emptyStore "2024-06-01" (by decide)

/-- Claim C9: for every pair of date strings start ≤ end, on a store whose
calendar keys agree with the stored documents' `date` fields (an invariant
every writer in the code maintains), `getAvailabilityRange` returns exactly
the stored calendar documents whose date key lies in the inclusive range
[start, end], ordered by the string order on the YYYY-MM-DD keys
(lexicographic on the character sequences). -/
theorem getAvailabilityRange_range_sorted (st : Store) (s t : String)
    (_hst : s ≤ t) (hwf : ∀ kv ∈ st.calendar, kv.2.date = kv.1) :
    ∃ l, getAvailabilityRange none st s t = (Except.ok l, st) ∧
      List.Perm l
        ((st.calendar.filter fun kv =>
            decide (s ≤ kv.1) && decide (kv.1 ≤ t)).map Prod.snd) ∧
      List.Sorted docLe l ∧
      ∀ d ∈ l, s ≤ d.date ∧ d.date ≤ t := by
  refine ⟨_, rfl, ?_, List.sorted_insertionSort docLe _, ?_⟩
  · have h1 : ((st.calendar.map Prod.snd).filter (inRange s t)) =
        ((st.calendar.filter fun kv =>
            decide (s ≤ kv.1) && decide (kv.1 ≤ t)).map Prod.snd) := by
      rw [List.filter_map Prod.snd st.calendar]
      congr 1
      apply List.filter_congr
      intro kv hkv
      simp [inRange, Function.comp, hwf kv hkv]
    rw [← h1]
    exact List.perm_insertionSort docLe _
  · intro d hd
    rw [List.mem_insertionSort] at hd
    have hm := List.mem_filter.mp hd
    simpa [inRange] using hm.2

/-- Claim C9, witness: the statement at a concrete three-document store and
a concrete inclusive range that keeps two of the documents. -/
theorem getAvailabilityRange_range_sorted_witness :
    ("2024-06-01" : String) ≤ "2024-06-30" ∧
    (∃ l, getAvailabilityRange none rangeStore "2024-06-01" "2024-06-30" =
        (Except.ok l, rangeStore) ∧
      List.Perm l
        ((rangeStore.calendar.filter fun kv =>
            decide ("2024-06-01" ≤ kv.1) &&
              decide (kv.1 ≤ "2024-06-30")).map Prod.snd) ∧
      List.Sorted docLe l ∧
      ∀ d ∈ l, "2024-06-01" ≤ d.date ∧ d.date ≤ "2024-06-30") :=
  ⟨le_of_lt (String.lt_iff_toList_lt.mpr (by decide)),
   getAvailabilityRange_range_sorted rangeStore "2024-06-01" "2024-06-30"
     (le_of_lt (String.lt_iff_toList_lt.mpr (by decide))) (by decide)⟩

/-- Claim C10: on an existing calendar document whose slot list has at most
one slot per time, `bookTimeSlot` preserves every slot whose time differs
from the given time — same time, availability and holder, in the same
relative order — and leaves exactly one slot with the given time. -/
theorem bookTimeSlot_preserves_other_slots (st : Store)
    (date time c : String) (doc : CalendarDoc)
    (hdoc : calendarGet st date = some doc)
    (hnodup : ((doc.slots.getD []).map TimeSlot.time).Nodup) :
    ∃ st', bookTimeSlot none none st date time c = (Except.ok (), st') ∧
      ∃ doc', calendarGet st' date = some doc' ∧
        ((doc'.slots.getD []).filter fun s => !(s.time == time)) =
          ((doc.slots.getD []).filter fun s => !(s.time == time)) ∧
        ((doc'.slots.getD []).filter fun s => s.time == time).length = 1 := by
  refine ⟨_, bookTimeSlot_some_eq st date time c doc hdoc, ?_⟩
  refine ⟨{ doc with
      slots := some (bookSlots (doc.slots.getD []) time c),
      updatedAt := st.now },
    assocGet_set_self st.calendar date _, ?_, ?_⟩
  · exact bookSlots_filter_ne (doc.slots.getD []) time c
  · exact bookSlots_count (doc.slots.getD []) time c hnodup

/-- Claim C10, witness: the statement at a concrete store whose document
holds one slot at 10:00, booking the distinct time 11:00. -/
theorem bookTimeSlot_preserves_other_slots_witness :
    ∃ st', bookTimeSlot none none exStore "2024-06-01" "11:00" "b@x.com" =
        (Except.ok (), st') ∧
      ∃ doc', calendarGet st' "2024-06-01" = some doc' ∧
        ((doc'.slots.getD []).filter fun s => !(s.time == "11:00")) =
          ((exDoc.slots.getD []).filter fun s => !(s.time == "11:00")) ∧
        ((doc'.slots.getD []).filter fun s => s.time == "11:00").length = 1 :=
  bookTimeSlot_preserves_other_slots exStore "2024-06-01" "11:00" "b@x.com"
    exDoc (by decide) (by decide)
